import Mathlib

/-!
Verification of the dispatch-number derivation and caching core of the
`bhcp-backend` service (`src/index.js`).

The core consists of:
* two regex-based parsers extracting a trailing number from a
  dispatch-number string (`/(\d+)-(\d+)$/` for the "Letter" class, `/(\d+)$/`
  for all other classes);
* an in-memory cache `lastDispatchNumbers = { letters, others }` updated by
  - `updateLastNumbersFromSheet` (full rescan, max-merge, lines 181-228),
  - the `POST /api/updateLastDispatchNumber` handler (direct overwrite from
    `parseInt(newTotal) + 1`, lines 292-307),
  - the `POST /api/addEntry` handler (direct overwrite from the parsed
    dispatch number + 1, lines 431-446).

Strings are modelled by Lean `String`, rows by `List String` (a missing or
empty cell is `""`, matching JavaScript falsiness of `undefined` and `""`),
and JavaScript numbers in the cache by `Int` (all values produced by the
parsers are exact small integers).  `NaN` is modelled where it matters (the
`parseInt` coercion in the update handler) by `Option Int`, `none` = NaN.
-/

/-- Numeric value of a list of decimal digit characters, most significant
first: the value `parseInt` gives to a pure digit string such as `"034"`. -/
def digitsVal (l : List Char) : Nat :=
  l.foldl (fun a c => a * 10 + (c.toNat - 48)) 0

/-- Embedding of `dispatchNum.match(/(\d+)-(\d+)$/)` followed by
`parseInt(match[2])` (src/index.js lines 204-206 and 433-435): the match
succeeds exactly when the string ends in a nonempty run of digits preceded
by `'-'` preceded by at least one digit; the result is the value of the
trailing digit run (the second capture group). -/
def parseLetterNumber (s : String) : Option Nat :=
  if s.data.reverse.takeWhile Char.isDigit = [] then none
  else
    match s.data.reverse.dropWhile Char.isDigit with
    | '-' :: c :: _ =>
      if c.isDigit then
        some (digitsVal (s.data.reverse.takeWhile Char.isDigit).reverse)
      else none
    | _ => none

/-- Embedding of `dispatchNum.match(/(\d+)$/)` followed by
`parseInt(match[1])` (src/index.js lines 213-215 and 440-442): the match
succeeds exactly when the string ends in a digit; the result is the value of
the maximal trailing digit run. -/
def parseOtherNumber (s : String) : Option Nat :=
  if s.data.reverse.takeWhile Char.isDigit = [] then none
  else some (digitsVal (s.data.reverse.takeWhile Char.isDigit).reverse)

/-- The in-memory cache `lastDispatchNumbers` (src/index.js lines 175-178). -/
structure Cache where
  letters : Int
  others : Int
deriving DecidableEq, Repr

/-- The initial cache `{ letters: 0, others: 0 }`. -/
def initCache : Cache := ⟨0, 0⟩

/-- The body of the `dataRows.forEach(row => ...)` callback
(src/index.js lines 197-222).  `row.getD i ""` models `row[i]`, with a
missing cell behaving like the empty string (both are falsy and neither
matches either regex). -/
def processRow (c : Cache) (row : List String) : Cache :=
  let dispatchNum := row.getD 0 ""
  let fileType := row.getD 3 ""
  if dispatchNum ≠ "" ∧ fileType ≠ "" then
    if fileType = "Letter" then
      match parseLetterNumber dispatchNum with
      | some n => { c with letters := max c.letters ((n : Int) + 1) }
      | none => c
    else
      match parseOtherNumber dispatchNum with
      | some n => { c with others := max c.others ((n : Int) + 1) }
      | none => c
  else c

/-- The pure row-scanning part of `updateLastNumbersFromSheet`
(src/index.js lines 191-222): `rows.slice(1)` then the `forEach` loop. -/
def rescanRows (rows : List (List String)) (c : Cache) : Cache :=
  (rows.drop 1).foldl processRow c

/-- `updateLastNumbersFromSheet` (src/index.js lines 181-228) with the
spreadsheet read made explicit: `none` models the `sheets` call throwing
(source unavailable).  The whole body is inside `try { ... } catch (error) {
console.error(...) }`, so a failure is logged and swallowed: the function
returns normally with the cache untouched. -/
def updateLastNumbersFromSheet (src : Option (List (List String)))
    (c : Cache) : Cache :=
  match src with
  | none => c
  | some rows => rescanRows rows c

/-- The `GET /api/lastDispatchNumbers` handler (src/index.js lines 274-289):
awaits `updateLastNumbersFromSheet` and responds `{ success: true,
lastDispatchNumbers }`.  The Boolean is the `success` flag of the response;
since `updateLastNumbersFromSheet` never throws (its own `catch` swallows
every error) the handler's `catch` branch is unreachable and the flag is
always `true`. -/
def lastDispatchNumbersHandler (src : Option (List (List String)))
    (c : Cache) : Cache × Bool :=
  (updateLastNumbersFromSheet src c, true)

/-- The cache write of the `POST /api/updateLastDispatchNumber` handler
(src/index.js lines 295-301) for an integer-valued `newTotal` (on which
JavaScript `parseInt` is the identity; the string/NaN coercion is modelled
separately by `jsParseInt` and `updateLastDispatchNumberHandler`). -/
def setNext (type : String) (newTotal : Int) (c : Cache) : Cache :=
  if type = "Letter" then { c with letters := newTotal + 1 }
  else { c with others := newTotal + 1 }

/-- The cache write of the `POST /api/addEntry` handler after a successful
append (src/index.js lines 431-446). -/
def advance (fileType : String) (dispatchNumber : String) (c : Cache) :
    Cache :=
  if fileType = "Letter" then
    match parseLetterNumber dispatchNumber with
    | some n => { c with letters := (n : Int) + 1 }
    | none => c
  else
    match parseOtherNumber dispatchNumber with
    | some n => { c with others := (n : Int) + 1 }
    | none => c

/-- JavaScript `parseInt(v)` for `v` a missing value (`undefined`) or a
string, on the default decimal path (optional leading whitespace, optional
sign, maximal run of leading decimal digits; no digits — and in particular a
missing value, whose string form `"undefined"` starts with no digit — gives
`NaN`, modelled as `none`). -/
def jsParseInt (v : Option String) : Option Int :=
  match v with
  | none => none
  | some str =>
    let l := str.data.dropWhile fun c =>
      c = ' ' ∨ c = '\t' ∨ c = '\n' ∨ c = '\r'
    let signAndRest : Bool × List Char :=
      match l with
      | '-' :: rest => (true, rest)
      | '+' :: rest => (false, rest)
      | _ => (false, l)
    let ds := signAndRest.2.takeWhile Char.isDigit
    if ds = [] then none
    else some (if signAndRest.1 then -(digitsVal ds : Int) else digitsVal ds)

/-- The cache with JavaScript number semantics made explicit: a field is
either a genuine integer or `NaN` (`none`). -/
structure CacheJ where
  letters : Option Int
  others : Option Int
deriving DecidableEq, Repr

/-- A NaN-free cache viewed as a `CacheJ`. -/
def toCacheJ (c : Cache) : CacheJ := ⟨some c.letters, some c.others⟩

/-- The full `POST /api/updateLastDispatchNumber` handler (src/index.js
lines 292-307): destructures `{ type, newTotal }` from the body (a missing
field is `none`), writes `parseInt(newTotal) + 1` into the field selected by
`type === 'Letter'` (`NaN + 1` is `NaN`), and responds `{ success: true,
lastDispatchNumbers }` unconditionally.  The Boolean is the `success`
flag. -/
def updateLastDispatchNumberHandler (type : Option String)
    (newTotal : Option String) (c : CacheJ) : CacheJ × Bool :=
  let v := (jsParseInt newTotal).map (· + 1)
  if type = some "Letter" then ({ c with letters := v }, true)
  else ({ c with others := v }, true)

/-- The three cache-mutating operations, for stating properties of
operation sequences. -/
inductive Op where
  | rescan (rows : List (List String))
  | advance (fileType dispatchNumber : String)
  | setNext (type : String) (newTotal : Int)
deriving DecidableEq, Repr

/-- Apply one operation to the cache. -/
def applyOp (c : Cache) : Op → Cache
  | .rescan rows => rescanRows rows c
  | .advance ft s => advance ft s c
  | .setNext t n => setNext t n c

/-- Apply a sequence of operations to the cache, left to right. -/
def applyOps (ops : List Op) (c : Cache) : Cache := ops.foldl applyOp c

/-- Whether an operation is a rescan. -/
def Op.isRescanOp : Op → Bool
  | .rescan _ => true
  | _ => false

/-- The per-row "next number" candidate a row contributes to the `letters`
field during a rescan: `parsed + 1` when the row has a dispatch number, its
file type is `"Letter"`, and the Letter regex matches; no candidate
otherwise.  (Characterizes the Letter branch of `processRow`, see
`processRow_eq`.) -/
def letterCand (row : List String) : Option Int :=
  if row.getD 0 "" ≠ "" ∧ row.getD 3 "" = "Letter" then
    (parseLetterNumber (row.getD 0 "")).map (fun n => (n : Int) + 1)
  else none

/-- The per-row "next number" candidate a row contributes to the `others`
field during a rescan: `parsed + 1` when the row has a dispatch number and a
file type other than `"Letter"`, and the trailing-digits regex matches.
(Characterizes the non-Letter branch of `processRow`.) -/
def otherCand (row : List String) : Option Int :=
  if row.getD 0 "" ≠ "" ∧ row.getD 3 "" ≠ "" ∧ row.getD 3 "" ≠ "Letter" then
    (parseOtherNumber (row.getD 0 "")).map (fun n => (n : Int) + 1)
  else none

/-- Fold a candidate into a field: `max` when a candidate exists, identity
otherwise. -/
def optMax (x : Int) : Option Int → Int
  | none => x
  | some n => max x n

theorem takeWhile_dropWhile_spec (p : Char → Bool) (a b : List Char)
    (ha : ∀ c ∈ a, p c = true) (hb : ∀ c, b.head? = some c → p c = false) :
    (a ++ b).takeWhile p = a ∧ (a ++ b).dropWhile p = b := by
  induction a with
  | nil =>
    cases b with
    | nil => simp
    | cons h t => simp [List.takeWhile_cons, List.dropWhile_cons, hb h rfl]
  | cons x a ih =>
    have hx : p x = true := ha x (by simp)
    have ih' := ih fun c hc => ha c (by simp [hc])
    simp [List.takeWhile_cons, List.dropWhile_cons, hx, ih'.1, ih'.2]

theorem parseLetterNumber_some_iff (s : String) (k : Nat) :
    parseLetterNumber s = some k ↔
      ∃ p d t, s.data = p ++ d :: '-' :: t ∧ d.isDigit = true ∧ t ≠ [] ∧
        (∀ c ∈ t, c.isDigit = true) ∧ digitsVal t = k := by
  constructor
  · intro h
    unfold parseLetterNumber at h
    split at h
    · exact absurd h (by simp)
    · rename_i h0
      split at h
      · rename_i c rest heq
        split at h
        · rename_i hc
          have hr : s.data.reverse =
              s.data.reverse.takeWhile Char.isDigit ++ '-' :: c :: rest := by
            conv_lhs => rw [← List.takeWhile_append_dropWhile (p := Char.isDigit)
              (l := s.data.reverse)]
            rw [heq]
          refine ⟨rest.reverse, c, (s.data.reverse.takeWhile Char.isDigit).reverse,
            ?_, hc, ?_, ?_, ?_⟩
          · have := congrArg List.reverse hr
            simpa using this
          · simpa using h0
          · intro c' hc'
            exact List.mem_takeWhile_imp (by simpa using hc')
          · simpa using h
        · exact absurd h (by simp)
      · exact absurd h (by simp)
  · rintro ⟨p, d, t, hs, hd, ht, hall, hk⟩
    have hrev : s.data.reverse = t.reverse ++ '-' :: d :: p.reverse := by
      rw [hs]; simp
    have hspec := takeWhile_dropWhile_spec Char.isDigit t.reverse
      ('-' :: d :: p.reverse)
      (fun c hc => hall c (by simpa using hc))
      (by intro c hc; simp at hc; rw [← hc]; decide)
    unfold parseLetterNumber
    rw [hrev, hspec.1, hspec.2]
    rw [if_neg (by simpa using ht)]
    simp [hd, hk]

theorem parseOtherNumber_some_iff (s : String) (k : Nat) :
    parseOtherNumber s = some k ↔
      ∃ p t, s.data = p ++ t ∧ t ≠ [] ∧ (∀ c ∈ t, c.isDigit = true) ∧
        (∀ c, p.getLast? = some c → c.isDigit = false) ∧ digitsVal t = k := by
  constructor
  · intro h
    unfold parseOtherNumber at h
    split at h
    · exact absurd h (by simp)
    · rename_i h0
      have hr : s.data.reverse =
          s.data.reverse.takeWhile Char.isDigit ++
            s.data.reverse.dropWhile Char.isDigit :=
        (List.takeWhile_append_dropWhile Char.isDigit s.data.reverse).symm
      refine ⟨(s.data.reverse.dropWhile Char.isDigit).reverse,
        (s.data.reverse.takeWhile Char.isDigit).reverse, ?_, ?_, ?_, ?_, ?_⟩
      · have h2 := congrArg List.reverse hr
        rw [List.reverse_reverse, List.reverse_append] at h2
        exact h2
      · simpa using h0
      · intro c' hc'
        exact List.mem_takeWhile_imp (by simpa using hc')
      · intro c hc
        rw [List.getLast?_reverse] at hc
        have := List.head?_dropWhile_not Char.isDigit s.data.reverse
        simp [hc] at this
        exact this
      · simpa using h
  · rintro ⟨p, t, hs, ht, hall, hlast, hk⟩
    have hrev : s.data.reverse = t.reverse ++ p.reverse := by
      rw [hs]; simp
    have hspec := takeWhile_dropWhile_spec Char.isDigit t.reverse p.reverse
      (fun c hc => hall c (by simpa using hc))
      (by intro c hc; rw [List.head?_reverse] at hc; exact hlast c hc)
    unfold parseOtherNumber
    rw [hrev, hspec.1]
    rw [if_neg (by simpa using ht)]
    simp [hk]

theorem processRow_eq (c : Cache) (row : List String) :
    processRow c row =
      ⟨optMax c.letters (letterCand row), optMax c.others (otherCand row)⟩ := by
  unfold processRow letterCand otherCand
  set a := row.getD 0 "" with haa
  set d := row.getD 3 "" with hdd
  by_cases ha : a = ""
  · simp [ha, optMax]
  · by_cases hd : d = ""
    · have hL : d ≠ "Letter" := by rw [hd]; decide
      simp [ha, hd, hL, optMax]
    · by_cases hL : d = "Letter"
      · cases hp : parseLetterNumber a <;>
          simp [ha, hd, hL, hp, optMax]
      · cases hp : parseOtherNumber a <;>
          simp [ha, hd, hL, hp, optMax]

theorem foldl_letters (rows : List (List String)) (c : Cache) :
    (rows.foldl processRow c).letters =
      rows.foldl (fun x row => optMax x (letterCand row)) c.letters := by
  induction rows generalizing c with
  | nil => rfl
  | cons r t ih =>
    rw [List.foldl_cons, List.foldl_cons, ih, processRow_eq]

theorem foldl_others (rows : List (List String)) (c : Cache) :
    (rows.foldl processRow c).others =
      rows.foldl (fun x row => optMax x (otherCand row)) c.others := by
  induction rows generalizing c with
  | nil => rfl
  | cons r t ih =>
    rw [List.foldl_cons, List.foldl_cons, ih, processRow_eq]

theorem foldl_optMax_init_le (f : List String → Option Int)
    (rows : List (List String)) (x : Int) :
    x ≤ rows.foldl (fun y r => optMax y (f r)) x := by
  induction rows generalizing x with
  | nil => exact le_refl x
  | cons r t ih =>
    refine le_trans ?_ (ih (optMax x (f r)))
    cases f r <;> simp [optMax]

theorem foldl_optMax_fix (f : List String → Option Int)
    (rows : List (List String)) (x : Int)
    (h : ∀ r ∈ rows, ∀ n, f r = some n → n ≤ x) :
    rows.foldl (fun y r => optMax y (f r)) x = x := by
  induction rows with
  | nil => rfl
  | cons r t ih =>
    have hx : optMax x (f r) = x := by
      cases hf : f r with
      | none => rfl
      | some n => simp [optMax, h r (by simp) n hf]
    rw [List.foldl_cons, hx]
    exact ih fun r' hr' n hf => h r' (by simp [hr']) n hf

theorem foldl_optMax_cand_le (f : List String → Option Int)
    (rows : List (List String)) (x : Int) :
    ∀ r ∈ rows, ∀ n, f r = some n →
      n ≤ rows.foldl (fun y r => optMax y (f r)) x := by
  induction rows generalizing x with
  | nil => intro r hr; simp at hr
  | cons a t ih =>
    intro r hr n hf
    rcases List.mem_cons.mp hr with h1 | h2
    · subst h1
      rw [List.foldl_cons]
      refine le_trans ?_ (foldl_optMax_init_le f t (optMax x (f r)))
      rw [hf]
      exact le_max_right x n
    · rw [List.foldl_cons]
      exact ih (optMax x (f a)) r h2 n hf

theorem foldl_optMax_idem (f : List String → Option Int)
    (rows : List (List String)) (x : Int) :
    rows.foldl (fun y r => optMax y (f r))
        (rows.foldl (fun y r => optMax y (f r)) x) =
      rows.foldl (fun y r => optMax y (f r)) x :=
  foldl_optMax_fix f rows _ fun r hr n hf =>
    foldl_optMax_cand_le f rows x r hr n hf

theorem Cache.ext2 (a b : Cache) (h1 : a.letters = b.letters)
    (h2 : a.others = b.others) : a = b := by
  cases a; cases b; simp_all

theorem rescanRows_mono (rows : List (List String)) (c : Cache) :
    c.letters ≤ (rescanRows rows c).letters ∧
      c.others ≤ (rescanRows rows c).others := by
  unfold rescanRows
  rw [foldl_letters, foldl_others]
  exact ⟨foldl_optMax_init_le _ _ _, foldl_optMax_init_le _ _ _⟩

theorem rescanRows_idem (rows : List (List String)) (c : Cache) :
    rescanRows rows (rescanRows rows c) = rescanRows rows c := by
  unfold rescanRows
  apply Cache.ext2
  · rw [foldl_letters, foldl_letters]
    exact foldl_optMax_idem _ _ _
  · rw [foldl_others, foldl_others]
    exact foldl_optMax_idem _ _ _

theorem takeWhile_nil_head (p : Char → Bool) (l : List Char) :
    l.takeWhile p = [] ↔ ∀ c, l.head? = some c → p c = false := by
  cases l with
  | nil => simp
  | cons h t => by_cases hp : p h <;> simp [List.takeWhile_cons, hp]

theorem parseOtherNumber_none_iff (s : String) :
    parseOtherNumber s = none ↔
      ∀ c, s.data.getLast? = some c → c.isDigit = false := by
  unfold parseOtherNumber
  by_cases h0 : s.data.reverse.takeWhile Char.isDigit = []
  · simp only [h0, if_pos]
    constructor
    · intro _ c hc
      exact (takeWhile_nil_head Char.isDigit s.data.reverse).mp h0 c
        (by rw [List.head?_reverse]; exact hc)
    · intro _; trivial
  · simp only [h0, if_neg, not_false_iff]
    constructor
    · intro h; simp at h
    · intro h
      exfalso
      apply h0
      rw [takeWhile_nil_head]
      intro c hc
      exact h c (by rw [← List.head?_reverse]; exact hc)

theorem processRow_skip (c : Cache) (row : List String)
    (h1 : letterCand row = none) (h2 : otherCand row = none) :
    processRow c row = c := by
  rw [processRow_eq, h1, h2]
  rfl

theorem advance_letter_some (c : Cache) (s : String) (n : Nat)
    (h : parseLetterNumber s = some n) :
    advance "Letter" s c = ⟨(n : Int) + 1, c.others⟩ := by
  simp [advance, h]

theorem advance_letter_none (c : Cache) (s : String)
    (h : parseLetterNumber s = none) : advance "Letter" s c = c := by
  simp [advance, h]

theorem advance_other_some (c : Cache) (ft s : String) (n : Nat)
    (hft : ft ≠ "Letter") (h : parseOtherNumber s = some n) :
    advance ft s c = ⟨c.letters, (n : Int) + 1⟩ := by
  simp [advance, hft, h]

theorem advance_other_none (c : Cache) (ft s : String)
    (hft : ft ≠ "Letter") (h : parseOtherNumber s = none) :
    advance ft s c = c := by
  simp [advance, hft, h]

theorem applyOps_rescan_mono (ops : List Op) (c : Cache)
    (h : ∀ op ∈ ops, op.isRescanOp = true) :
    c.letters ≤ (applyOps ops c).letters ∧
      c.others ≤ (applyOps ops c).others := by
  induction ops generalizing c with
  | nil => exact ⟨le_refl _, le_refl _⟩
  | cons op t ih =>
    have hop : op.isRescanOp = true := h op (by simp)
    cases op with
    | rescan rows =>
      have h1 := rescanRows_mono rows c
      have h2 := ih (rescanRows rows c) fun o ho => h o (by simp [ho])
      exact ⟨le_trans h1.1 h2.1, le_trans h1.2 h2.2⟩
    | advance ft s => simp [Op.isRescanOp] at hop
    | setNext t n => simp [Op.isRescanOp] at hop

theorem processRow_letter (c : Cache) (row : List String) (n : Nat)
    (h1 : row.getD 0 "" ≠ "") (h2 : row.getD 3 "" = "Letter")
    (h3 : parseLetterNumber (row.getD 0 "") = some n) :
    processRow c row = ⟨max c.letters ((n : Int) + 1), c.others⟩ := by
  have hl : letterCand row = some ((n : Int) + 1) := by
    unfold letterCand
    rw [if_pos ⟨h1, h2⟩, h3]
    rfl
  have ho : otherCand row = none := by
    unfold otherCand
    rw [if_neg]
    intro hcon
    exact hcon.2.2 h2
  rw [processRow_eq, hl, ho]
  rfl

theorem processRow_other (c : Cache) (row : List String) (n : Nat)
    (h1 : row.getD 0 "" ≠ "") (h2 : row.getD 3 "" ≠ "")
    (h2' : row.getD 3 "" ≠ "Letter")
    (h3 : parseOtherNumber (row.getD 0 "") = some n) :
    processRow c row = ⟨c.letters, max c.others ((n : Int) + 1)⟩ := by
  have hl : letterCand row = none := by
    unfold letterCand
    rw [if_neg]
    intro hcon
    exact h2' hcon.2
  have ho : otherCand row = some ((n : Int) + 1) := by
    unfold otherCand
    rw [if_pos ⟨h1, h2, h2'⟩, h3]
    rfl
  rw [processRow_eq, hl, ho]
  rfl

/-- Claim C1 is false at a concrete input: with the row source unavailable
(`none`), the `GET /api/lastDispatchNumbers` handler reports a *success*
response, not the failed response the claim requires. -/
theorem C1_counterexample :
    ¬ ((lastDispatchNumbersHandler none initCache).2 = false) := by decide

/-- Claim C1 (amended): if the row source is unavailable, `rescan`
(`updateLastNumbersFromSheet`) leaves both cache fields at their prior
values, but the failure is caught and logged inside the rescan itself rather
than surfaced: the `GET /api/lastDispatchNumbers` handler observes a normal
return and reports a success response carrying the stale snapshot. -/
theorem C1_failure_swallowed (c : Cache) :
    updateLastNumbersFromSheet none c = c ∧
      lastDispatchNumbersHandler none c = (c, true) :=
  ⟨rfl, rfl⟩

/-- Claim C2: `rescan` skips the first (header) row; a remaining row that
lacks a dispatch number, lacks a file type, or fails to parse leaves the
cache unchanged; a row classified `"Letter"` whose dispatch number parses to
`n` updates the letters field to `max(current, n + 1)`, and a row of any
other nonempty class whose number parses to `n` updates the others field to
`max(current, n + 1)`; in particular rescanning
`[header, ("X/1-5",_,_,"Letter"), ("X/1-9",_,_,"Letter")]` from an initial
cache of `0` yields `nextLetterNumber = 10`. -/
theorem C2_rescan_row_processing (hd row : List String)
    (tl : List (List String)) (c : Cache) (n : Nat) :
    rescanRows (hd :: tl) c = tl.foldl processRow c
    ∧ (letterCand row = none → otherCand row = none → processRow c row = c)
    ∧ (row.getD 0 "" ≠ "" → row.getD 3 "" = "Letter" →
        parseLetterNumber (row.getD 0 "") = some n →
        processRow c row = ⟨max c.letters ((n : Int) + 1), c.others⟩)
    ∧ (row.getD 0 "" ≠ "" → row.getD 3 "" ≠ "" → row.getD 3 "" ≠ "Letter" →
        parseOtherNumber (row.getD 0 "") = some n →
        processRow c row = ⟨c.letters, max c.others ((n : Int) + 1)⟩)
    ∧ rescanRows [["hdr", "", "", "hdr"], ["X/1-5", "d", "s", "Letter"],
        ["X/1-9", "d", "s", "Letter"]] ⟨0, 0⟩ = ⟨10, 0⟩ :=
  ⟨rfl, processRow_skip c row, processRow_letter c row n,
    processRow_other c row n, by decide⟩

/-- Witness for C2 at concrete inputs: an unparsable Letter row is skipped,
`"X/1-5"` yields `6`, and a non-Letter row `"A/12"` yields `13`. -/
theorem C2_rescan_row_processing_w :
    processRow ⟨0, 0⟩ ["abc", "", "", "Letter"] = ⟨0, 0⟩ ∧
      processRow ⟨0, 0⟩ ["X/1-5", "d", "s", "Letter"] = ⟨6, 0⟩ ∧
      processRow ⟨0, 0⟩ ["A/12", "d", "s", "Note"] = ⟨0, 13⟩ :=
  ⟨(C2_rescan_row_processing [] ["abc", "", "", "Letter"] [] ⟨0, 0⟩ 0).2.1
      (by decide) (by decide),
    (C2_rescan_row_processing [] ["X/1-5", "d", "s", "Letter"] [] ⟨0, 0⟩ 5).2.2.1
      (by decide) (by decide) (by decide),
    (C2_rescan_row_processing [] ["A/12", "d", "s", "Note"] [] ⟨0, 0⟩ 12).2.2.2.1
      (by decide) (by decide) (by decide) (by decide)⟩

/-- Claim C3: `advance` parses the dispatch number with the parser matching
the file-type class and, when a number `n` is derivable, overwrites the
corresponding cache field with `n + 1` unconditionally (a direct overwrite,
not a max), leaving the other field unchanged; an unparsable string leaves
the cache unchanged and raises no error; in particular
`advance("Letter", "X/1-99")` sets the letters field to `100` regardless of
its prior value. -/
theorem C3_advance_overwrites (c : Cache) (ft s : String) (n : Nat) :
    (parseLetterNumber s = some n →
      advance "Letter" s c = ⟨(n : Int) + 1, c.others⟩)
    ∧ (parseLetterNumber s = none → advance "Letter" s c = c)
    ∧ (ft ≠ "Letter" → parseOtherNumber s = some n →
        advance ft s c = ⟨c.letters, (n : Int) + 1⟩)
    ∧ (ft ≠ "Letter" → parseOtherNumber s = none → advance ft s c = c)
    ∧ advance "Letter" "X/1-99" c = ⟨100, c.others⟩ :=
  ⟨advance_letter_some c s n, advance_letter_none c s,
    fun hft => advance_other_some c ft s n hft,
    fun hft => advance_other_none c ft s hft,
    advance_letter_some c "X/1-99" 99 (by decide)⟩

/-- Witness for C3 at concrete inputs: `advance` overwrites downward
(`77` to `6`), updates the others field, and is a no-op on unparsable
strings. -/
theorem C3_advance_overwrites_w :
    advance "Letter" "X/1-5" ⟨77, 3⟩ = ⟨6, 3⟩ ∧
      advance "Note" "A/12" ⟨77, 3⟩ = ⟨77, 13⟩ ∧
      advance "Letter" "abc" ⟨77, 3⟩ = ⟨77, 3⟩ ∧
      advance "Note" "abc" ⟨77, 3⟩ = ⟨77, 3⟩ :=
  ⟨(C3_advance_overwrites ⟨77, 3⟩ "Note" "X/1-5" 5).1 (by decide),
    (C3_advance_overwrites ⟨77, 3⟩ "Note" "A/12" 12).2.2.1 (by decide) (by decide),
    (C3_advance_overwrites ⟨77, 3⟩ "Note" "abc" 0).2.1 (by decide),
    (C3_advance_overwrites ⟨77, 3⟩ "Note" "abc" 0).2.2.2.1 (by decide) (by decide)⟩

/-- Claim C4 is false at a concrete input: `advance` is a direct overwrite,
so the operation sequence `[advance("Letter", "X/1-5")]` run from a cache
with letters field `100` *lowers* that field (to `6`). -/
theorem C4_counterexample :
    (applyOps [Op.advance "Letter" "X/1-5"] ⟨100, 0⟩).letters <
      (Cache.mk 100 0).letters := by decide

/-- Claim C4 (amended): both cache fields are monotonically non-decreasing
across every sequence of *rescan* operations (a rescan never lowers a
field); the claim's inclusion of `advance` and `setNext` fails because both
are direct overwrites that may lower a field (see the counterexample). -/
theorem C4_rescan_only_monotone (ops : List Op) (c : Cache)
    (h : ∀ op ∈ ops, op.isRescanOp = true) :
    c.letters ≤ (applyOps ops c).letters ∧
      c.others ≤ (applyOps ops c).others :=
  applyOps_rescan_mono ops c h

/-- Witness for C4 (amended) at a concrete rescan sequence. -/
theorem C4_rescan_only_monotone_w :
    initCache.letters ≤
        (applyOps [Op.rescan [["h"], ["A/1-2", "", "", "Letter"]]]
          initCache).letters ∧
      initCache.others ≤
        (applyOps [Op.rescan [["h"], ["A/1-2", "", "", "Letter"]]]
          initCache).others :=
  C4_rescan_only_monotone [Op.rescan [["h"], ["A/1-2", "", "", "Letter"]]]
    initCache (by decide)

/-- Claim C5: `parseLetterNumber` succeeds exactly on strings ending in
`digits ++ "-" ++ digits` (the trailing `(\d+)-(\d+)` pattern anchored at
the end) and returns the value of the second captured group, the maximal
trailing digit run; it is absent exactly when the pattern does not match;
`"No.BHCP/2024/CAT/12-034"` gives `34` and `"no-trailing-number"` is
absent. -/
theorem C5_parseLetterNumber_spec (s : String) (k : Nat) :
    (parseLetterNumber s = some k ↔
      ∃ p d t, s.data = p ++ d :: '-' :: t ∧ d.isDigit = true ∧ t ≠ [] ∧
        (∀ c ∈ t, c.isDigit = true) ∧ digitsVal t = k)
    ∧ parseLetterNumber "No.BHCP/2024/CAT/12-034" = some 34
    ∧ parseLetterNumber "no-trailing-number" = none :=
  ⟨parseLetterNumber_some_iff s k, by decide, by decide⟩

/-- Claim C6: `parseOtherNumber` returns the integer value of the maximal
trailing run of digits of the string, and is absent exactly when the string
does not end in a digit; `"No.BHCP/CAT/2024/057"` gives `57` and
`"also-none"` is absent. -/
theorem C6_parseOtherNumber_spec (s : String) (k : Nat) :
    (parseOtherNumber s = some k ↔
      ∃ p t, s.data = p ++ t ∧ t ≠ [] ∧ (∀ c ∈ t, c.isDigit = true) ∧
        (∀ c, p.getLast? = some c → c.isDigit = false) ∧ digitsVal t = k)
    ∧ (parseOtherNumber s = none ↔
        ∀ c, s.data.getLast? = some c → c.isDigit = false)
    ∧ parseOtherNumber "No.BHCP/CAT/2024/057" = some 57
    ∧ parseOtherNumber "also-none" = none :=
  ⟨parseOtherNumber_some_iff s k, parseOtherNumber_none_iff s,
    by decide, by decide⟩

/-- Claim C7: `setNext` overwrites the cache field selected by the
file-type class (the letters field when the class is `"Letter"`, the others
field for any other class) with `observedTotal + 1` unconditionally, leaving
the other field unchanged; `setNext("other", 41)` sets the others field to
`42`; and the `POST /api/updateLastDispatchNumber` handler never fails (its
response always carries `success: true`). -/
theorem C7_setNext_spec (c : Cache) (n : Int) (t : String) (ty : Option String)
    (nt : Option String) (cj : CacheJ) :
    setNext "Letter" n c = ⟨n + 1, c.others⟩
    ∧ (t ≠ "Letter" → setNext t n c = ⟨c.letters, n + 1⟩)
    ∧ setNext "other" 41 c = ⟨c.letters, 42⟩
    ∧ (updateLastDispatchNumberHandler ty nt cj).2 = true := by
  refine ⟨by simp [setNext], fun ht => by simp [setNext, ht], by simp [setNext], ?_⟩
  unfold updateLastDispatchNumberHandler
  split <;> rfl

/-- Witness for C7 at a concrete non-Letter class. -/
theorem C7_setNext_spec_w : setNext "other" 5 ⟨1, 2⟩ = ⟨1, 6⟩ :=
  (C7_setNext_spec ⟨1, 2⟩ 5 "other" none none ⟨none, none⟩).2.1 (by decide)

/-- Claim C8: `rescan` is monotone: for every prior cache state and every
row list, each field after the rescan is at least its value before; in
particular a cache with letters field `20` rescanned over rows implying only
`6` keeps the field at `20`. -/
theorem C8_rescan_monotone (rows : List (List String)) (c : Cache) :
    (c.letters ≤ (rescanRows rows c).letters ∧
      c.others ≤ (rescanRows rows c).others)
    ∧ rescanRows [["h", "", "", "h"], ["A/1-5", "", "", "Letter"]] ⟨20, 0⟩ =
        ⟨20, 0⟩ :=
  ⟨rescanRows_mono rows c, by decide⟩

/-- Claim C9: `rescan` is idempotent over an unchanged row source: running
`updateLastNumbersFromSheet` twice in succession on the same source yields
the same snapshot after the first run as after the second. -/
theorem C9_rescan_idempotent (src : Option (List (List String))) (c : Cache) :
    updateLastNumbersFromSheet src (updateLastNumbersFromSheet src c) =
      updateLastNumbersFromSheet src c := by
  cases src with
  | none => rfl
  | some rows => exact rescanRows_idem rows c

/-- Claim C10: the `POST /api/updateLastDispatchNumber` handler coerces
`newTotal` with `parseInt` before adding `1`: the numeric string `"41"`
behaves exactly as the integer `41` (matching `setNext`), while any body on
which `parseInt` yields `NaN` — in particular a missing `newTotal` — sets
the selected cache field to `NaN` (`none`) and the handler still reports
success rather than rejecting the input. -/
theorem C10_parseInt_coercion (c : Cache) (cj : CacheJ) (ty nt : Option String) :
    updateLastDispatchNumberHandler (some "other") (some "41") (toCacheJ c) =
      (toCacheJ (setNext "other" 41 c), true)
    ∧ updateLastDispatchNumberHandler (some "Letter") (some "41") (toCacheJ c) =
      (toCacheJ (setNext "Letter" 41 c), true)
    ∧ (jsParseInt nt = none →
        updateLastDispatchNumberHandler (some "Letter") nt cj =
          ({ cj with letters := none }, true))
    ∧ (jsParseInt nt = none → ty ≠ some "Letter" →
        updateLastDispatchNumberHandler ty nt cj =
          ({ cj with others := none }, true))
    ∧ jsParseInt none = none := by
  refine ⟨rfl, rfl, fun h => ?_, fun h hy => ?_, rfl⟩
  · simp [updateLastDispatchNumberHandler, h]
  · simp [updateLastDispatchNumberHandler, h, hy]

/-- Witness for C10 at concrete inputs: a missing `newTotal` drives the
selected field to `NaN` while the handler reports success. -/
theorem C10_parseInt_coercion_w :
    updateLastDispatchNumberHandler (some "Letter") none ⟨some 3, some 7⟩ =
      (⟨none, some 7⟩, true) ∧
    updateLastDispatchNumberHandler none none ⟨some 3, some 7⟩ =
      (⟨some 3, none⟩, true) :=
  ⟨(C10_parseInt_coercion ⟨0, 0⟩ ⟨some 3, some 7⟩ none none).2.2.1 (by decide),
    (C10_parseInt_coercion ⟨0, 0⟩ ⟨some 3, some 7⟩ none none).2.2.2.1
      (by decide) (by decide)⟩
